import Mathlib

/-!
Verification development for the json-c library (src/json.c, src/json.h).

The C code operates on NUL-terminated byte buffers through raw `char*`
cursors.  The shallow embedding below represents a buffer as a `List Nat`
of byte values (the bytes strictly before the terminating NUL; the
library itself rejects interior NUL bytes at parse time), and a cursor as
a natural-number index into that list.  Reading at or past the end of the
list yields the byte 0, exactly as dereferencing the terminator does in
the C code.  C loops are embedded as structurally recursive functions
over an explicit fuel parameter so that every definition reduces inside
the kernel; each fuel unit is consumed together with at least one strict
advance of a cursor or one shrink of a list, so the generous canonical
fuel values passed by the top-level entry points can never be the
limiting factor on the inputs the C code handles.
-/

/-- Byte read through a cursor: `getc s i` is `s[i]`, and 0 (the NUL
terminator) at or beyond the end of the buffer. -/
def getc (s : List Nat) (i : Nat) : Nat := s.getD i 0

/-- Convenience conversion from a Lean string literal to the byte list it
denotes (all documents in this development are ASCII apart from decoded
UTF-8 output bytes, which are written as explicit numerals). -/
def bs (s : String) : List Nat := s.data.map (fun c => c.toNat)

/-- Embedding of `p_is_whitespace` (json.c line 82): space, CR, LF, TAB. -/
def p_is_whitespace (c : Nat) : Bool := c = 32 || c = 13 || c = 10 || c = 9

/-- Embedding of `p_trim_whitespace` (json.c line 86): strip whitespace
from both ends; `none` when nothing remains (the C code returns NULL).
The C function copies the remaining bytes into a fresh buffer; the
embedding returns the corresponding sub-list. -/
def p_trim_whitespace (s : List Nat) : Option (List Nat) :=
  let t := s.dropWhile (fun c => p_is_whitespace c)
  if t = [] then none
  else some ((t.reverse.dropWhile (fun c => p_is_whitespace c)).reverse)

/-- Embedding of `p_eat_whitespace` (json.c line 112): index of the first
non-whitespace byte at or after `i`, `none` if the terminator is reached
first (including when `s[i]` is already the terminator). -/
def p_eat_whitespace (fuel : Nat) (s : List Nat) (i : Nat) : Option Nat :=
  match fuel with
  | 0 => none
  | fuel + 1 =>
    if getc s i = 0 then none
    else if p_is_whitespace (getc s i) then p_eat_whitespace fuel s (i + 1)
    else some i

/-- The eight single-character escapes accepted by `p_is_valid_string`
(json.c line 138): backslash, quote, slash, b, f, n, r, t. -/
def isSimpleEsc (c : Nat) : Bool :=
  c = 92 || c = 34 || c = 47 || c = 98 || c = 102 || c = 110 || c = 114 || c = 116

/-- Hexadecimal digit test used by the `\u` arm of `p_is_valid_string`
(json.c lines 146-148) and by the embedded `strtol` model: 0-9, a-f, A-F. -/
def isHexDigit (c : Nat) : Bool :=
  (48 ≤ c && c ≤ 57) || (97 ≤ c && c ≤ 102) || (65 ≤ c && c ≤ 70)

/-- Loop body of `p_is_valid_string` (json.c lines 125-156), entered with
the cursor already past the opening quote.  Follows the C control flow
byte for byte: stop with failure at the terminator, break at a closing
quote (then require one further byte, json.c line 162), accept the eight
simple escapes, accept a backslash-u followed by exactly four bytes that
must all be present and hexadecimal, reject every other escape. -/
def pvsLoop (fuel : Nat) (s : List Nat) (j : Nat) : Option Nat :=
  match fuel with
  | 0 => none
  | fuel + 1 =>
    if getc s j = 0 then none
    else if getc s j = 34 then
      if getc s (j + 1) = 0 then none else some (j + 1)
    else if getc s j = 92 then
      if getc s (j + 1) = 0 then none
      else if isSimpleEsc (getc s (j + 1)) then pvsLoop fuel s (j + 2)
      else if getc s (j + 1) = 117 then
        if getc s (j + 2) = 0 ∨ getc s (j + 3) = 0 ∨ getc s (j + 4) = 0 ∨ getc s (j + 5) = 0 then
          none
        else if isHexDigit (getc s (j + 2)) && isHexDigit (getc s (j + 3))
              && isHexDigit (getc s (j + 4)) && isHexDigit (getc s (j + 5)) then
          pvsLoop fuel s (j + 6)
        else none
      else none
    else pvsLoop fuel s (j + 1)

/-- Embedding of `p_is_valid_string` (json.c line 121): requires an
opening quote at the cursor, then runs the loop above.  On success the
returned cursor sits on the first byte after the closing quote, which the
function has checked is not the terminator. -/
def p_is_valid_string (fuel : Nat) (s : List Nat) (i : Nat) : Option Nat :=
  if getc s i ≠ 34 then none
  else pvsLoop fuel s (i + 1)

/-- Digit-eating loop shared by the arms of `p_is_valid_number`
(json.c lines 178, 189, 212): advance while the byte is an ASCII digit. -/
def eatDigits (fuel : Nat) (s : List Nat) (i : Nat) : Nat :=
  match fuel with
  | 0 => i
  | fuel + 1 =>
    if 48 ≤ getc s i ∧ getc s i ≤ 57 then eatDigits fuel s (i + 1) else i

/-- Position of the first byte of the integer part of a number: one past
an optional leading minus sign (json.c line 169). -/
def numStart (s : List Nat) (i : Nat) : Nat :=
  if getc s i = 45 then i + 1 else i

/-- Exponent arm of `p_is_valid_number` (json.c lines 199-219): `e`/`E`,
optional sign, digits, then the terminator check and the
whitespace-or-comma termination rule; anything else fails. -/
def pvnExp (fuel : Nat) (s : List Nat) (i : Nat) : Option Nat :=
  if getc s i = 101 ∨ getc s i = 69 then
    if getc s (i + 1) = 0 then none
    else
      let j := if getc s (i + 1) = 45 ∨ getc s (i + 1) = 43 then i + 2 else i + 1
      if getc s j = 0 then none
      else
        let k := eatDigits fuel s j
        if getc s k = 0 then none
        else if getc s k = 44 ∨ p_is_whitespace (getc s k) = true then some k
        else none
  else none

/-- Fraction arm of `p_is_valid_number` (json.c lines 187-196).  The C
code enters the arm on seeing a dot but its digit loop starts at the
current cursor, which still sits on the dot, so the loop consumes
nothing and the cursor never advances past the dot; the embedding
reproduces that behaviour exactly (see claim C4). -/
def pvnFrac (fuel : Nat) (s : List Nat) (i : Nat) : Option Nat :=
  if getc s i = 46 then
    let j := eatDigits fuel s i
    if getc s j = 0 then none
    else if getc s j = 44 ∨ p_is_whitespace (getc s j) = true then some j
    else pvnExp fuel s j
  else pvnExp fuel s i

/-- Embedding of `p_is_valid_number` (json.c line 167): optional minus,
the leading-zero restriction (a 0 must be followed by a dot,
json.c line 175), digits, then termination by whitespace or comma, with
the fraction and exponent arms as fall-throughs. -/
def p_is_valid_number (fuel : Nat) (s : List Nat) (i0 : Nat) : Option Nat :=
  let i1 := numStart s i0
  if getc s i1 = 0 then none
  else if getc s i1 = 48 ∧ getc s (i1 + 1) ≠ 46 then none
  else
    let i2 := eatDigits fuel s i1
    if getc s i2 = 0 then none
    else if getc s i2 = 44 ∨ p_is_whitespace (getc s i2) = true then some i2
    else pvnFrac fuel s i2

/-- Embedding of the node-type enumeration `json_node_type_t`
(json.h lines 8-22). -/
inductive json_node_type_t where
  | JSON_INVALID
  | JSON_OBJECT
  | JSON_ARRAY
  | JSON_TRUE
  | JSON_FALSE
  | JSON_NULL
  | JSON_NUMBER
  | JSON_STRING
deriving DecidableEq

open json_node_type_t

/-- Test whether the four (respectively five) bytes at cursor `i` spell a
given literal.  This embeds the C idiom `strstr(s, "true") == s`
(json.c lines 266, 268, ...), which holds exactly when the buffer at `s`
starts with the literal. -/
def matchLit (s : List Nat) (i : Nat) : List Nat → Bool
  | [] => true
  | c :: cs => getc s i = c && matchLit s (i + 1) cs

/-- Canonical fuel used by the entry points that run the recursive
validator over a buffer: every fuel unit spent accompanies a strict
cursor advance or a descent into a nested container whose opening byte
is never revisited, so this bound can never be exhausted first. -/
def vFuel (s : List Nat) : Nat := (s.length + 4) * 6

/-- Control point of the recursive validator: validating a whole object
or array, classifying a single value, or running the member loop of an
object or array.  The four mutually recursive C functions are embedded
as one fuel-structural function over this mode so that the kernel can
evaluate it. -/
inductive VMode where
  | doc : json_node_type_t → VMode
  | value : VMode
  | oloop : VMode
  | aloop : VMode

/-- Single recursive engine for `p_is_valid_json` (json.c line 225) and
its loops; see the wrappers below for the correspondence with the C
functions.  Mode `doc t`: dispatch on the expected container kind,
require the opening brace or bracket, skip whitespace and enter the
member loop; any kind other than object or array fails (json.c
line 372).  Mode `value` (json.c lines 262-274 and 329-341): nested
object, nested array, the `true`/`null`/`false` literals, a string,
otherwise a number.  Mode `oloop` (json.c lines 235-307): closing brace
ends the object; otherwise a quoted key, whitespace, a colon,
whitespace, a value, whitespace, then either the closing brace or a
comma, after which an immediate closing brace - a trailing comma - is
rejected (json.c line 295).  Mode `aloop` (json.c lines 317-371): the
same without keys, with the bracket in place of the brace (json.c
line 362 rejects the trailing comma). -/
def jsonValidGo : Nat → List Nat → Nat → VMode → Option Nat
  | 0, _, _, _ => none
  | fuel + 1, s, i, VMode.doc t =>
    if t = JSON_OBJECT then
      if getc s i ≠ 123 then none
      else
        match p_eat_whitespace (s.length + 2) s (i + 1) with
        | none => none
        | some k => jsonValidGo fuel s k VMode.oloop
    else if t = JSON_ARRAY then
      if getc s i ≠ 91 then none
      else
        match p_eat_whitespace (s.length + 2) s (i + 1) with
        | none => none
        | some k => jsonValidGo fuel s k VMode.aloop
    else none
  | fuel + 1, s, i, VMode.value =>
    if getc s i = 123 then jsonValidGo fuel s i (VMode.doc JSON_OBJECT)
    else if getc s i = 91 then jsonValidGo fuel s i (VMode.doc JSON_ARRAY)
    else if matchLit s i [116, 114, 117, 101] || matchLit s i [110, 117, 108, 108] then
      some (i + 4)
    else if matchLit s i [102, 97, 108, 115, 101] then some (i + 5)
    else if getc s i = 34 then p_is_valid_string (s.length + 2) s i
    else p_is_valid_number (s.length + 2) s i
  | fuel + 1, s, i, VMode.oloop =>
    if getc s i = 125 then some (i + 1)
    else if getc s i = 34 then
      match p_is_valid_string (s.length + 2) s i with
      | none => none
      | some k =>
        match p_eat_whitespace (s.length + 2) s k with
        | none => none
        | some k2 =>
          if getc s k2 ≠ 58 then none
          else
            match p_eat_whitespace (s.length + 2) s (k2 + 1) with
            | none => none
            | some v =>
              match jsonValidGo fuel s v VMode.value with
              | none => none
              | some ve =>
                match p_eat_whitespace (s.length + 2) s ve with
                | none => none
                | some w =>
                  if getc s w = 125 then some (w + 1)
                  else if getc s w = 44 then
                    match p_eat_whitespace (s.length + 2) s (w + 1) with
                    | none => none
                    | some n =>
                      if getc s n = 125 then none else jsonValidGo fuel s n VMode.oloop
                  else none
    else none
  | fuel + 1, s, i, VMode.aloop =>
    if getc s i = 93 then some (i + 1)
    else
      match jsonValidGo fuel s i VMode.value with
      | none => none
      | some ve =>
        match p_eat_whitespace (s.length + 2) s ve with
        | none => none
        | some w =>
          if getc s w = 93 then some (w + 1)
          else if getc s w = 44 then
            match p_eat_whitespace (s.length + 2) s (w + 1) with
            | none => none
            | some n => if getc s n = 93 then none else jsonValidGo fuel s n VMode.aloop
          else none

/-- Embedding of `p_is_valid_json` (json.c line 225). -/
def p_is_valid_json (fuel : Nat) (s : List Nat) (i : Nat) (t : json_node_type_t) : Option Nat :=
  jsonValidGo fuel s i (VMode.doc t)

/-- The `isspace` class consulted by `strtol`/`strtod` in the C locale:
space and the five control characters 9-13. -/
def isspaceC (c : Nat) : Bool := c = 32 || (9 ≤ c && c ≤ 13)

/-- Numeric value of a hexadecimal digit byte. -/
def hexDigitVal (c : Nat) : Nat :=
  if c ≤ 57 then c - 48 else if c ≤ 70 then c - 55 else c - 87

/-- Accumulating loop of `strtol` in base 16: consume a maximal run of
hexadecimal digits. -/
def hexRun (l : List Nat) (acc : Int) : Int :=
  match l with
  | [] => acc
  | c :: t => if isHexDigit c then hexRun t (16 * acc + (hexDigitVal c : Int)) else acc

/-- Model of the C call `strtol(hex, NULL, 16)` made by
`p_unescape_string` (json.c line 822) on the four bytes following `\u`:
skip leading whitespace, an optional sign, an optional `0x`/`0X` prefix
(consumed only when a hexadecimal digit follows), then a maximal run of
hexadecimal digits; a missing run yields 0. -/
def strtol16 (l : List Nat) : Int :=
  let l1 := l.dropWhile (fun c => isspaceC c)
  let neg := getc l1 0 = 45
  let l2 := if getc l1 0 = 45 ∨ getc l1 0 = 43 then l1.drop 1 else l1
  let l3 :=
    if getc l2 0 = 48 ∧ (getc l2 1 = 120 ∨ getc l2 1 = 88) ∧ isHexDigit (getc l2 2) then
      l2.drop 2
    else l2
  let v := hexRun l3 0
  if neg then -v else v

/-- The `switch` of `p_unescape_string` (json.c lines 879-889): the byte
written over the backslash for each simple escape; an unrecognized
escape character leaves the backslash byte unchanged. -/
def escByte (d : Nat) : Nat :=
  if d = 92 then 92
  else if d = 34 then 34
  else if d = 47 then 47
  else if d = 98 then 8
  else if d = 102 then 12
  else if d = 110 then 10
  else if d = 114 then 13
  else if d = 116 then 9
  else 92

/-- UTF-8 encoding step of `p_unescape_string` (json.c lines 824-875):
one byte for code points up to 0x7F (stored through a `char`, hence the
mod 256), two bytes up to 0x7FF, three bytes otherwise.  The C code uses
`|` and shifts on the `int` code; for the non-negative codes produced by
four hexadecimal digits these agree with the operations below. -/
def utf8enc (code : Int) : List Nat :=
  if code ≤ 127 then [(code % 256).toNat]
  else if code ≤ 2047 then
    [192 ||| (code.toNat >>> 6), 128 ||| (code.toNat &&& 63)]
  else
    [224 ||| (code.toNat >>> 12), 128 ||| ((code.toNat >>> 6) &&& 63), 128 ||| (code.toNat &&& 63)]

/-- Embedding of `p_unescape_string` (json.c line 815), the in-place
escape decoder, as a function from the byte list to the rewritten byte
list: the left-shifts the C code performs after writing the replacement
bytes correspond exactly to concatenating the replacement with the
decoded remainder.  A backslash-u arm requires the four following bytes
to be present (the C code checks them against the terminator,
json.c line 819); when any is missing the backslash falls to the switch,
which has no case for `u`, so the backslash byte survives and the `u` is
consumed by the shift.  Fuel 0 returns the remaining bytes unchanged;
every step consumes at least one byte, so the canonical fuel
`length + 1` used by callers is never exhausted. -/
def p_unescape_string (fuel : Nat) (l : List Nat) : List Nat :=
  match fuel with
  | 0 => l
  | fuel + 1 =>
    match l with
    | [] => []
    | 92 :: 117 :: h1 :: h2 :: h3 :: h4 :: rest =>
      if h1 = 0 ∨ h2 = 0 ∨ h3 = 0 ∨ h4 = 0 then
        92 :: p_unescape_string fuel (h1 :: h2 :: h3 :: h4 :: rest)
      else
        utf8enc (strtol16 [h1, h2, h3, h4]) ++ p_unescape_string fuel rest
    | 92 :: d :: rest => escByte d :: p_unescape_string fuel rest
    | c :: rest => c :: p_unescape_string fuel rest

/-- Integer-part loop of the C `atof`: consume decimal digits into a
rational accumulator, returning the rest of the input. -/
def atofDigits : List Nat → Rat → Rat × List Nat
  | [], acc => (acc, [])
  | c :: t, acc =>
    if 48 ≤ c ∧ c ≤ 57 then atofDigits t (acc * 10 + ((c - 48 : Nat) : Rat)) else (acc, c :: t)

/-- Fraction loop of the C `atof`: each digit contributes at the next
smaller power of ten. -/
def atofFrac : List Nat → Rat → Rat → Rat × List Nat
  | [], acc, _ => (acc, [])
  | c :: t, acc, scale =>
    if 48 ≤ c ∧ c ≤ 57 then atofFrac t (acc + ((c - 48 : Nat) : Rat) * scale) (scale / 10)
    else (acc, c :: t)

/-- Exponent digit loop of the C `atof`, over naturals. -/
def natDigits : List Nat → Nat → Nat × List Nat
  | [], acc => (acc, [])
  | c :: t, acc =>
    if 48 ≤ c ∧ c ≤ 57 then natDigits t (acc * 10 + (c - 48)) else (acc, c :: t)

/-- Model of the C call `atof(number)` made by `p_lazy_load`
(json.c line 463) on the copied numeral: leading whitespace, optional
sign, integer digits, optional fraction, optional decimal exponent.  The
C function returns a `double`; the model computes the exact rational
value of the decimal literal, which coincides with the `double` for the
small integer literals evaluated in this development (hexadecimal,
infinity and nan spellings are not modelled: the validated numerals the
library feeds to `atof` never contain them). -/
def atofQ (s : List Nat) : Rat :=
  let s1 := s.dropWhile (fun c => isspaceC c)
  let neg := getc s1 0 = 45
  let s2 := if getc s1 0 = 45 ∨ getc s1 0 = 43 then s1.drop 1 else s1
  let (ip, s3) := atofDigits s2 0
  let (v, s4) :=
    match s3 with
    | 46 :: t => atofFrac t ip (1 / 10)
    | t => (ip, t)
  let v2 :=
    if getc s4 0 = 101 ∨ getc s4 0 = 69 then
      let t := s4.drop 1
      let eneg := getc t 0 = 45
      let t2 := if getc t 0 = 45 ∨ getc t 0 = 43 then t.drop 1 else t
      let (ev, _) := natDigits t2 0
      if eneg then v / (10 : Rat) ^ ev else v * (10 : Rat) ^ ev
    else v
  if neg then -v2 else v2

/-- Model of the C call `round(d)` (json.c line 464): nearest integer,
halves away from zero. -/
def c_round (q : Rat) : Int :=
  if 0 ≤ q then (q + 1 / 2).floor else -((-(q - 1 / 2)).floor)

/-- Embedding of `struct json` (json.c lines 9-40).  The `root` and
`parent` pointers of the C struct are not stored in the node: the
traversal model below addresses a node by its position (the list of
child indices from the root), under which the parent is the position
with the last index removed - exactly the node that created the child in
`p_build_child_json_node` (json.c line 411) - and the root is the empty
position.  The `value_double` field is modelled as an exact rational;
for the integer literals evaluated in this development this coincides
with the C `double`. -/
inductive JNode where
  | mk : json_node_type_t → List Nat → Option (List Nat) → Int → List JNode →
      Option (List Nat) → Rat → Int → JNode

/-- Field `node_type` of `struct json`. -/
def JNode.node_type : JNode → json_node_type_t | .mk t _ _ _ _ _ _ _ => t

/-- Field `backing_data` of `struct json`: the suffix of the document
buffer at which this node starts. -/
def JNode.backing_data : JNode → List Nat | .mk _ b _ _ _ _ _ _ => b

/-- Field `path_name` of `struct json`: `none` models the C NULL. -/
def JNode.path_name : JNode → Option (List Nat) | .mk _ _ p _ _ _ _ _ => p

/-- Field `children_count` of `struct json`: -1 means not yet scanned. -/
def JNode.children_count : JNode → Int | .mk _ _ _ c _ _ _ _ => c

/-- Field `children` of `struct json`. -/
def JNode.children : JNode → List JNode | .mk _ _ _ _ cs _ _ _ => cs

/-- Field `value_string` of `struct json`: `none` models the C NULL. -/
def JNode.value_string : JNode → Option (List Nat) | .mk _ _ _ _ _ v _ _ => v

/-- Field `value_double` of `struct json`. -/
def JNode.value_double : JNode → Rat | .mk _ _ _ _ _ _ d _ => d

/-- Field `value_int` of `struct json`. -/
def JNode.value_int : JNode → Int | .mk _ _ _ _ _ _ _ n => n

/-- Embedding of `p_build_root_json_node` (json.c line 378): a fresh
node with unknown children and zeroed cached values. -/
def p_build_root_json_node (data : List Nat) (t : json_node_type_t) : JNode :=
  JNode.mk t data none (-1) [] none 0 0

/-- Embedding of `p_build_child_json_node` (json.c line 399): as the
root builder, but carrying the member key (NULL for array elements).
The `parent` and `root` pointers the C code stores are represented
positionally, as explained at `JNode`. -/
def p_build_child_json_node (data : List Nat) (pname : Option (List Nat))
    (t : json_node_type_t) : JNode :=
  JNode.mk t data pname (-1) [] none 0 0

/-- Value classification shared by the two member loops of `p_lazy_load`
(json.c lines 564-585 for objects, 671-691 for arrays; the two copies in
the C source are textually identical in this respect): the child's node
type read off the first byte or literal prefix, together with the cursor
just past the value as delimited by the single-value validators. -/
def classifyValue (s : List Nat) (v : Nat) : json_node_type_t × Option Nat :=
  if getc s v = 123 then (JSON_OBJECT, p_is_valid_json (vFuel s) s v JSON_OBJECT)
  else if getc s v = 91 then (JSON_ARRAY, p_is_valid_json (vFuel s) s v JSON_ARRAY)
  else if matchLit s v [116, 114, 117, 101] then (JSON_TRUE, some (v + 4))
  else if matchLit s v [110, 117, 108, 108] then (JSON_NULL, some (v + 4))
  else if matchLit s v [102, 97, 108, 115, 101] then (JSON_FALSE, some (v + 5))
  else if getc s v = 34 then (JSON_STRING, p_is_valid_string (s.length + 2) s v)
  else (JSON_NUMBER, p_is_valid_number (s.length + 2) s v)

/-- Member loop of the object arm of `p_lazy_load`
(json.c lines 517-630), producing the child nodes in document order.
`e` is the cursor just past the object as computed by the validator;
the loop runs while the cursor is strictly below it.  A quoted key is
delimited, the key bytes between the quotes are copied and decoded
(json.c lines 532-539), a colon must follow immediately (json.c
line 542: the C code does not skip whitespace before the colon here),
then the value is classified, a child node is appended, and the loop
continues after the comma, stops past the closing brace, or - when the
byte after a value is neither - re-dispatches at the unchanged cursor as
the C `while` does.  `none` models the abort calls of the C code. -/
def objScan (fuel : Nat) (s : List Nat) (i : Nat) (e : Nat) : Option (List JNode) :=
  match fuel with
  | 0 => none
  | fuel + 1 =>
    if ¬ i < e then some []
    else if getc s i = 125 then some []
    else if getc s i = 34 then
      match p_is_valid_string (s.length + 2) s i with
      | none => none
      | some k =>
        let raw := (s.drop (i + 1)).take (k - i - 2)
        let pname := p_unescape_string (raw.length + 1) raw
        if getc s k ≠ 58 then none
        else
          match p_eat_whitespace (s.length + 2) s (k + 1) with
          | none => none
          | some v =>
            let (ct, vEnd) := classifyValue s v
            let child := p_build_child_json_node (s.drop v) (some pname) ct
            match vEnd with
            | none => none
            | some ve =>
              match p_eat_whitespace (s.length + 2) s ve with
              | none => none
              | some w =>
                if getc s w = 125 then (objScan fuel s (w + 1) e).map (fun cs => child :: cs)
                else if getc s w = 44 then
                  match p_eat_whitespace (s.length + 2) s (w + 1) with
                  | none => none
                  | some n =>
                    if getc s n = 125 then none
                    else (objScan fuel s n e).map (fun cs => child :: cs)
                else (objScan fuel s w e).map (fun cs => child :: cs)
    else none

/-- Element loop of the array arm of `p_lazy_load`
(json.c lines 651-733): as the object loop but without keys (the C code
passes NULL as the path name, json.c lines 672-690), and with an extra
whitespace skip at the top of each iteration (json.c line 656). -/
def arrScan (fuel : Nat) (s : List Nat) (i : Nat) (e : Nat) : Option (List JNode) :=
  match fuel with
  | 0 => none
  | fuel + 1 =>
    if ¬ i < e then some []
    else if getc s i = 93 then some []
    else
      match p_eat_whitespace (s.length + 2) s i with
      | none => none
      | some v =>
        let (ct, vEnd) := classifyValue s v
        let child := p_build_child_json_node (s.drop v) none ct
        match vEnd with
        | none => none
        | some ve =>
          match p_eat_whitespace (s.length + 2) s ve with
          | none => none
          | some w =>
            if getc s w = 93 then (arrScan fuel s (w + 1) e).map (fun cs => child :: cs)
            else if getc s w = 44 then
              match p_eat_whitespace (s.length + 2) s (w + 1) with
              | none => none
              | some n =>
                if getc s n = 93 then none
                else (arrScan fuel s n e).map (fun cs => child :: cs)
            else (arrScan fuel s w e).map (fun cs => child :: cs)

/-- Embedding of `p_lazy_load` (json.c line 433).  A node whose children
state is already known is returned unchanged (json.c line 436).
Otherwise the children count becomes 0 and, depending on the node type:
a number re-delimits its numeral, copies it and caches the `atof` value
and its rounding (json.c lines 441-469); a string re-delimits itself,
copies the bytes between the quotes, decodes the escapes in place and
caches the result (json.c lines 470-496); an object or array re-runs the
validator to find its end and scans its immediate children with the
loops above (json.c lines 497-734); the literal types keep zero
children.  `none` models the abort calls the C code makes on spans that
whole-document validation should have made impossible. -/
def p_lazy_load (j : JNode) : Option JNode :=
  if j.children_count ≠ -1 then some j
  else
    match j.node_type with
    | JSON_NUMBER =>
      match p_is_valid_number (j.backing_data.length + 2) j.backing_data 0 with
      | none => none
      | some e =>
        let span := j.backing_data.take e
        let d := atofQ span
        some (JNode.mk j.node_type j.backing_data j.path_name 0 j.children
          j.value_string d (c_round d))
    | JSON_STRING =>
      match p_is_valid_string (j.backing_data.length + 2) j.backing_data 0 with
      | none => none
      | some e =>
        let raw := (j.backing_data.drop 1).take (e - 2)
        some (JNode.mk j.node_type j.backing_data j.path_name 0 j.children
          (some (p_unescape_string (raw.length + 1) raw)) j.value_double j.value_int)
    | JSON_OBJECT =>
      match p_is_valid_json (vFuel j.backing_data) j.backing_data 0 JSON_OBJECT with
      | none => none
      | some e =>
        match p_eat_whitespace (j.backing_data.length + 2) j.backing_data 1 with
        | none => none
        | some st =>
          match objScan (vFuel j.backing_data) j.backing_data st e with
          | none => none
          | some cs =>
            some (JNode.mk j.node_type j.backing_data j.path_name (cs.length : Int) cs
              j.value_string j.value_double j.value_int)
    | JSON_ARRAY =>
      match p_is_valid_json (vFuel j.backing_data) j.backing_data 0 JSON_ARRAY with
      | none => none
      | some e =>
        match p_eat_whitespace (j.backing_data.length + 2) j.backing_data 1 with
        | none => none
        | some st =>
          match arrScan (vFuel j.backing_data) j.backing_data st e with
          | none => none
          | some cs =>
            some (JNode.mk j.node_type j.backing_data j.path_name (cs.length : Int) cs
              j.value_string j.value_double j.value_int)
    | _ =>
      some (JNode.mk j.node_type j.backing_data j.path_name 0 j.children
        j.value_string j.value_double j.value_int)

/-- Embedding of `json_parse` (json.c line 910).  The input list holds
the `length` bytes before the terminating NUL the C contract requires,
so the check `s[length] == 0` holds by construction; the backward scan
of json.c lines 918-920 rejects a NUL anywhere after the first byte.
Whitespace is trimmed, the first byte must open an object or array, and
the corresponding validator must accept at the start of the trimmed
buffer - the C code only compares its result against NULL, without
requiring it to have consumed the whole buffer.  On success the root
node wraps the trimmed buffer. -/
def json_parse (s : List Nat) : Option JNode :=
  if s.length = 0 then none
  else if (s.drop 1).contains 0 then none
  else
    match p_trim_whitespace s with
    | none => none
    | some data =>
      if getc data 0 ≠ 123 ∧ getc data 0 ≠ 91 then none
      else
        let t := if getc data 0 = 91 then JSON_ARRAY else JSON_OBJECT
        match p_is_valid_json (vFuel data) data 0 t with
        | none => none
        | some _ => some (p_build_root_json_node data t)

/-- Embedding of `json_children_count` (json.c line 996).  The C
function mutates the node in place; the embedding returns the count
together with the node state after the call.  A NULL node yields 0; the
outer `none` models the abort paths inside `p_lazy_load`. -/
def json_children_count (oj : Option JNode) : Option (Int × Option JNode) :=
  match oj with
  | none => some (0, none)
  | some j =>
    if j.children_count = -1 then
      (p_lazy_load j).map (fun j2 => (j2.children_count, some j2))
    else some (j.children_count, some j)

/-- Embedding of `json_get_child` (json.c line 1002): lazy load, then a
bounds check against the children count; the inner `none` models the
NULL the C function returns for a NULL node or an out-of-range index. -/
def json_get_child (oj : Option JNode) (n : Int) : Option (Option JNode) :=
  match oj with
  | none => some none
  | some j =>
    match p_lazy_load j with
    | none => none
    | some j2 =>
      if n < 0 ∨ j2.children_count ≤ n then some none
      else some j2.children[n.toNat]?

/-- Embedding of `json_value_as_int` (json.c line 988): 0 for a NULL
node, 1 for `true`, 0 for every other non-number type, and the cached
rounded integer for a number after lazy loading. -/
def json_value_as_int (oj : Option JNode) : Option (Int × Option JNode) :=
  match oj with
  | none => some (0, none)
  | some j =>
    if j.node_type = JSON_TRUE then some (1, some j)
    else if j.node_type ≠ JSON_NUMBER then some (0, some j)
    else
      match p_lazy_load j with
      | none => none
      | some j2 => some (j2.value_int, some j2)

/-- Embedding of `json_get_name` (json.c line 1009): the empty string
for a NULL node, otherwise the stored `path_name` pointer, which is NULL
(`none`) for the root and for array elements. -/
def json_get_name (oj : Option JNode) : Option (List Nat) :=
  match oj with
  | none => some []
  | some j => j.path_name

/-- Embedding of `json_get_type` (json.c line 1019). -/
def json_get_type (oj : Option JNode) : json_node_type_t :=
  match oj with
  | none => JSON_INVALID
  | some j => j.node_type

/-- Node lookup by position: the node reached from `j` by taking the
given child indices in order, materializing children on the way.  This
realizes the pointer graph of the C tree: the node a position denotes is
the one `p_lazy_load` created at that index, and since lazy loading is
deterministic and write-once, recomputing it agrees with reading the
cached pointer. -/
def nodeAt (j : JNode) (loc : List Nat) : Option JNode :=
  match loc with
  | [] => some j
  | i :: rest =>
    match p_lazy_load j with
    | none => none
    | some j2 =>
      match j2.children[i]? with
      | none => none
      | some c => nodeAt c rest

/-- Key scan of the object arm of `p_traverse_json` (json.c line 762):
advance to the first slash, opening bracket or terminator. -/
def objSegEnd (fuel : Nat) (path : List Nat) (k : Nat) : Nat :=
  match fuel with
  | 0 => k
  | fuel + 1 =>
    if getc path k = 47 ∨ getc path k = 91 ∨ getc path k = 0 then k
    else objSegEnd fuel path (k + 1)

/-- In-order first-match search over the children of an object node
(json.c lines 773-781): index of the first child whose key equals the
segment name. -/
def childFind (cs : List JNode) (name : List Nat) : Option Nat :=
  match cs with
  | [] => none
  | c :: t =>
    if c.path_name = some name then some 0
    else (childFind t name).map (fun k => k + 1)

/-- Index scan of the array arm of `p_traverse_json` (json.c line 788).
The C loop is `while(*end != ']' || *end != '\0') end++;` - its
condition is true for every byte, because no byte is both the closing
bracket and the terminator, so the loop never reaches an exit state: in
the C program it runs off the end of the path string.  The embedding
makes this visible by never returning a result for any amount of fuel
(theorem claim_C3_thm below). -/
def p_traverse_array_scan (fuel : Nat) (path : List Nat) (e : Nat) : Option Nat :=
  match fuel with
  | 0 => none
  | fuel + 1 =>
    if getc path e ≠ 93 ∨ getc path e ≠ 0 then p_traverse_array_scan fuel path (e + 1)
    else some e

/-- Embedding of `p_traverse_json` (json.c line 739) over positions: the
current node is `nodeAt root loc`, its parent is the position with the
last index removed, and `none` both for the C NULL node argument and the
C NULL result.  An empty path returns the current node; the exact path
`..` returns the parent (NULL, hence not-found, at the root); a `../` or
`..[` head recurses from the parent; otherwise the node is materialized,
a node without children ends the search (json.c line 756), an object
matches the next segment against its children's keys in order, and the
array arm never gets past its index scan (see `p_traverse_array_scan`):
the remainder of that arm in the C source is unreachable and is not
modelled further. -/
def p_traverse_json (fuel : Nat) (root : JNode) (oj : Option (List Nat))
    (path : List Nat) : Option (List Nat) :=
  match fuel with
  | 0 => none
  | fuel + 1 =>
    if path = [] then oj
    else
      match oj with
      | none => none
      | some loc =>
        if path = [46, 46] then
          match loc with
          | [] => none
          | _ => some loc.dropLast
        else if matchLit path 0 [46, 46, 47] || matchLit path 0 [46, 46, 91] then
          p_traverse_json fuel root
            (match loc with | [] => none | _ => some loc.dropLast) (path.drop 3)
        else
          match nodeAt root loc with
          | none => none
          | some j =>
            match p_lazy_load j with
            | none => none
            | some jl =>
              if jl.children.isEmpty then none
              else if jl.node_type = JSON_OBJECT then
                let d := objSegEnd (path.length + 2) path 0
                let name := path.take d
                match childFind jl.children name with
                | none => none
                | some idx =>
                  if getc path d = 0 then some (loc ++ [idx])
                  else p_traverse_json fuel root (some (loc ++ [idx])) (path.drop (d + 1))
              else if jl.node_type = JSON_ARRAY then
                match p_traverse_array_scan (path.length + 2) path 0 with
                | none => none
                | some _ => none
              else none

/-- Embedding of `json_traverse` (json.c line 964): NULL in, NULL out; a
leading slash re-anchors at the root (the empty position) and skips the
slash; otherwise the resolver runs from the given node. -/
def json_traverse (root : JNode) (oj : Option (List Nat)) (path : List Nat) :
    Option (List Nat) :=
  match oj with
  | none => none
  | some loc =>
    if getc path 0 = 47 then
      p_traverse_json (path.length + 2) root (some []) (path.drop 1)
    else p_traverse_json (path.length + 2) root (some loc) path

/-- Hexadecimal value of four digit bytes, most significant first: the
code point a `\uXXXX` escape denotes. -/
def hexVal4 (a b c d : Nat) : Nat :=
  4096 * hexDigitVal a + 256 * hexDigitVal b + 16 * hexDigitVal c + hexDigitVal d

/-- Expected UTF-8 bytes for a code point, written as the specification
states them (1 byte up to 0x7F, 2 bytes up to 0x7FF, 3 bytes otherwise)
using division and remainder instead of the bitwise operations of the
source; agreement with the source computation `utf8enc` is proved in
claim C7. -/
def utf8SpecBytes (v : Nat) : List Nat :=
  if v ≤ 127 then [v]
  else if v ≤ 2047 then [192 + v / 64, 128 + v % 64]
  else [224 + v / 4096, 128 + v / 64 % 64, 128 + v % 64]

/-- Sample document root used by witnesses: the root node `json_parse`
builds for the document consisting of an object with the single member
`a` holding the number 1. -/
def docA : JNode := p_build_root_json_node (bs "\x7b\"a\":1 \x7d") JSON_OBJECT

/-- Sample already-materialized leaf node used by witnesses. -/
def leafTrue : JNode := JNode.mk JSON_TRUE (bs "true") none 0 [] none 0 0

/-- Claim C1 counterexample input: the document bytes of the text
consisting of an empty object followed by the letter x. -/
def c1doc : List Nat := bs "\x7b\x7dx"

/-- Claim C1 (counterexample).  The claim requires `parse` to succeed
only when whole-document validation consumes the entire trimmed content
with nothing left over.  On the three-byte input holding an empty object
followed by a stray letter, trimming is the identity, the object
validator stops at cursor 2 leaving the final byte unconsumed, and yet
`json_parse` succeeds: json.c line 938 only compares the validator
result against NULL and never against the end of the buffer. -/
theorem claim_C1_counterexample :
    (json_parse c1doc).isSome = true ∧
    p_trim_whitespace c1doc = some c1doc ∧
    p_is_valid_json (vFuel c1doc) c1doc 0 JSON_OBJECT = some 2 ∧
    c1doc.drop 2 = [120] :=
  ⟨rfl, rfl, rfl, rfl⟩

/-- Claim C1 (amended).  `json_parse` succeeds exactly when the buffer
is non-empty, has no NUL byte after its first position, trims to a
non-empty content whose first byte opens an object or array, and the
validator for that container kind accepts at the start of the trimmed
content - consuming a prefix, not necessarily everything.  On any
violation the result is `none` and no structure is returned. -/
theorem claim_C1_amended (s : List Nat) :
    (json_parse s).isSome = true ↔
      (s.length ≠ 0 ∧ (s.drop 1).contains 0 = false ∧
        ∃ d, p_trim_whitespace s = some d ∧ (getc d 0 = 123 ∨ getc d 0 = 91) ∧
          (p_is_valid_json (vFuel d) d 0
            (if getc d 0 = 91 then JSON_ARRAY else JSON_OBJECT)).isSome = true) := by
  constructor
  · intro h
    unfold json_parse at h
    split_ifs at h with h1 h2
    · simp at h
    · simp at h
    · refine ⟨h1, by simpa using h2, ?_⟩
      cases htrim : p_trim_whitespace s with
      | none => simp only [htrim] at h; simp at h
      | some d =>
        simp only [htrim] at h
        refine ⟨d, rfl, ?_⟩
        split_ifs at h with h3 h91
        · simp at h
        · push_neg at h3
          rw [if_pos h91]
          cases hval : p_is_valid_json (vFuel d) d 0 JSON_ARRAY with
          | none => rw [hval] at h; simp at h
          | some e => exact ⟨Or.inr h91, by simp [hval]⟩
        · push_neg at h3
          rw [if_neg h91]
          cases hval : p_is_valid_json (vFuel d) d 0 JSON_OBJECT with
          | none => rw [hval] at h; simp at h
          | some e =>
            refine ⟨?_, by simp [hval]⟩
            exact Or.inl (by by_contra hc; exact h91 (h3 hc))
  · rintro ⟨h1, h2, d, htrim, hbrace, hval⟩
    have hb2 : ¬ (getc d 0 ≠ 123 ∧ getc d 0 ≠ 91) := by
      push_neg
      intro hc
      rcases hbrace with hb | hb
      · exact absurd hb hc
      · exact hb
    unfold json_parse
    rw [if_neg h1]
    rw [if_neg (show ¬ ((s.drop 1).contains 0 = true) from by simpa using h2)]
    simp only [htrim]
    rw [if_neg hb2]
    obtain ⟨e, he⟩ := Option.isSome_iff_exists.mp hval
    simp only [he]
    rfl

/-- Claim C2 (counterexample).  The claim asserts that `parse` succeeds
on the document `[1,2,3]`; in fact the number validator requires every
numeral to be terminated by whitespace or a comma (json.c line 184), the
final `3` is followed by the closing bracket, so the validator and hence
`json_parse` reject the document. -/
theorem claim_C2_counterexample : json_parse (bs "[1,2,3]") = none := rfl

/-- Claim C2 (amended).  With a space inserted before the closing
bracket - satisfying the whitespace-or-comma number termination rule -
the document parses to an array root with exactly 3 children whose
integer accessor values are 1, 2 and 3 in order. -/
theorem claim_C2_amended_thm :
    json_get_type (json_parse (bs "[1,2,3 ]")) = JSON_ARRAY ∧
    (json_children_count (json_parse (bs "[1,2,3 ]"))).map Prod.fst = some 3 ∧
    ((json_get_child (json_parse (bs "[1,2,3 ]")) 0).bind
      (fun oc => (json_value_as_int oc).map Prod.fst)) = some 1 ∧
    ((json_get_child (json_parse (bs "[1,2,3 ]")) 1).bind
      (fun oc => (json_value_as_int oc).map Prod.fst)) = some 2 ∧
    ((json_get_child (json_parse (bs "[1,2,3 ]")) 2).bind
      (fun oc => (json_value_as_int oc).map Prod.fst)) = some 3 := by
  refine ⟨rfl, rfl, ?_, ?_, ?_⟩ <;> with_unfolding_all rfl

/-- Claim C4.  The claim states that a numeral with an optional
fraction followed by a comma or whitespace is accepted.  The fraction
arm of `p_is_valid_number` never advances the cursor past the dot
(json.c lines 187-196: the digit loop starts on the dot itself), so the
numeral `1.5` followed by a comma is rejected, while the fraction-free
`15` followed by a comma is accepted at the comma; the code moreover
accepts an empty numeral when the cursor already sits on a comma,
which the claim also excludes. -/
theorem claim_C4_thm :
    p_is_valid_number ((bs "1.5,").length + 2) (bs "1.5,") 0 = none ∧
    p_is_valid_number ((bs "15,").length + 2) (bs "15,") 0 = some 2 ∧
    p_is_valid_number ((bs ",x").length + 2) (bs ",x") 0 = some 0 :=
  ⟨rfl, rfl, rfl⟩

/-- Claim C3.  The index scan of the array arm of `p_traverse_json`
never terminates: its loop condition at json.c line 788 is
`*end != ']' || *end != '\0'`, true of every byte, so no amount of fuel
lets the embedded scan return a result - the bounds-checked indexing the
claim describes is unreachable dead code. -/
theorem claim_C3_thm : ∀ fuel path e, p_traverse_array_scan fuel path e = none := by
  intro fuel
  induction fuel with
  | zero => intro path e; rfl
  | succ fuel ih =>
    intro path e
    rw [p_traverse_array_scan]
    split_ifs with h
    · exact ih path (e + 1)
    · push_neg at h
      omega

/-- Helper for claim C5: whenever the string-validation loop succeeds,
the byte at the returned cursor is not the terminator - the loop only
returns through the branch that has just checked this (json.c
line 162). -/
theorem pvsLoop_ne_zero : ∀ fuel s j v, pvsLoop fuel s j = some v → getc s v ≠ 0 := by
  intro fuel
  induction fuel with
  | zero => intro s j v h; exact Option.noConfusion h
  | succ fuel ih =>
    intro s j v h
    rw [pvsLoop] at h
    split_ifs at h
    all_goals try exact ih s (j + 1) v h
    all_goals try exact ih s (j + 2) v h
    all_goals try exact ih s (j + 6) v h
    rename_i h0 h34 hz
    have hv := Option.some.inj h
    subst hv
    exact hz

/-- Claim C5.  String validation succeeds only if at least one byte
follows the closing quote: every successful run of `p_is_valid_string`
returns a cursor whose byte is not the terminator (first conjunct), and
a string whose closing quote ends the buffer is rejected outright
(second conjunct, json.c line 162). -/
theorem claim_C5_thm :
    (∀ fuel s i v, p_is_valid_string fuel s i = some v → getc s v ≠ 0) ∧
    p_is_valid_string 8 (bs "\"a\"") 0 = none := by
  constructor
  · intro fuel s i v h
    unfold p_is_valid_string at h
    split_ifs at h
    all_goals exact pvsLoop_ne_zero fuel s (i + 1) v h
  · rfl

/-- Witness for claim C5 at a concrete input: the same string with one
byte after the closing quote validates, and the theorem applies to it. -/
theorem claim_C5_witness :
    p_is_valid_string 8 (bs "\"a\"x") 0 = some 3 ∧ getc (bs "\"a\"x") 3 ≠ 0 :=
  ⟨rfl, claim_C5_thm.1 8 (bs "\"a\"x") 0 3 rfl⟩

/-- Claim C6.  If the integer part of a numeral starts with the digit 0
(after the optional minus sign) and the next byte is not a dot, the
number validator rejects (first conjunct, json.c line 175); hence a
successful validation of such a numeral guarantees that the byte after
the 0 is a dot (second conjunct). -/
theorem claim_C6_thm (fuel : Nat) (s : List Nat) (i0 : Nat) :
    (getc s (numStart s i0) = 48 → getc s (numStart s i0 + 1) ≠ 46 →
      p_is_valid_number fuel s i0 = none) ∧
    ((p_is_valid_number fuel s i0).isSome = true → getc s (numStart s i0) = 48 →
      getc s (numStart s i0 + 1) = 46) := by
  have h1 : getc s (numStart s i0) = 48 → getc s (numStart s i0 + 1) ≠ 46 →
      p_is_valid_number fuel s i0 = none := by
    intro h48 h46
    unfold p_is_valid_number
    rw [if_neg (by rw [h48]; omega)]
    rw [if_pos ⟨h48, h46⟩]
  refine ⟨h1, ?_⟩
  intro hs h48
  by_contra h46
  rw [h1 h48 h46] at hs
  exact Bool.noConfusion hs

/-- Witness for claim C6 at a concrete input: the numeral 05 followed
by a comma is rejected because the byte after the leading 0 is the
digit 5, not a dot. -/
theorem claim_C6_witness : p_is_valid_number 7 (bs "05,") 0 = none :=
  (claim_C6_thm 7 (bs "05,") 0).1 rfl (by decide)

/-- Helper for claim C7: a hexadecimal digit byte has value below 16. -/
theorem hexDigitVal_lt16 (c : Nat) (h : isHexDigit c = true) : hexDigitVal c < 16 := by
  simp [isHexDigit] at h
  unfold hexDigitVal
  split_ifs <;> omega

/-- Helper for claim C7: on exactly four hexadecimal digit bytes the
embedded `strtol` model returns their base-16 value - no whitespace is
skipped, no sign or `0x` prefix is consumed, and the digit run covers
the whole string. -/
theorem strtol16_hex4 (a b c d : Nat) (Ha : isHexDigit a = true) (Hb : isHexDigit b = true)
    (Hc : isHexDigit c = true) (Hd : isHexDigit d = true) :
    strtol16 [a, b, c, d] = ((hexVal4 a b c d : Nat) : Int) := by
  have ra := Ha; have rb := Hb; have rc := Hc; have rd := Hd
  simp [isHexDigit] at ra rb rc rd
  have hsp : isspaceC a = false := by simp [isspaceC]; omega
  have key : [a, b, c, d].dropWhile (fun x => isspaceC x) = [a, b, c, d] := by
    rw [List.dropWhile_cons, hsp]
    simp
  have hC1 : ¬ getc [a, b, c, d] 0 = 45 := by simp [getc]; omega
  have hC2 : ¬ (getc [a, b, c, d] 0 = 45 ∨ getc [a, b, c, d] 0 = 43) := by
    simp [getc]; omega
  have hC3 : ¬ (getc [a, b, c, d] 0 = 48 ∧
      (getc [a, b, c, d] 1 = 120 ∨ getc [a, b, c, d] 1 = 88) ∧
      isHexDigit (getc [a, b, c, d] 2) = true) := by
    simp only [getc, List.getD]
    simp
    intro h48 h12
    omega
  have hrun : hexRun [a, b, c, d] 0 =
      ((hexVal4 a b c d : Nat) : Int) := by
    simp [hexRun, Ha, Hb, Hc, Hd, hexVal4]
    ring
  simp only [strtol16, key, if_neg hC2, if_neg hC3, if_neg hC1, hrun]

/-- Helper for claim C7: the bitwise UTF-8 assembly of the source agrees
with the arithmetic form of the specification for every code point below
0x10000 (four hexadecimal digits). -/
theorem utf8enc_eq (v : Nat) (hv : v < 65536) :
    utf8enc ((v : Nat) : Int) = utf8SpecBytes v := by
  have l1 : ∀ w, w < 32 → 192 ||| w = 192 + w := by decide
  have l2 : ∀ w, w < 64 → 128 ||| w = 128 + w := by decide
  have l3 : ∀ w, w < 16 → 224 ||| w = 224 + w := by decide
  have hand : ∀ n : Nat, n &&& 63 = n % 64 := by
    intro n
    have h6 := Nat.and_pow_two_sub_one_eq_mod n 6
    norm_num at h6
    exact h6
  have hshr6 : ∀ n : Nat, n >>> 6 = n / 64 := by
    intro n
    rw [Nat.shiftRight_eq_div_pow]
  have hshr12 : ∀ n : Nat, n >>> 12 = n / 4096 := by
    intro n
    rw [Nat.shiftRight_eq_div_pow]
  unfold utf8enc utf8SpecBytes
  by_cases h1 : v ≤ 127
  · rw [if_pos (by exact_mod_cast h1), if_pos h1]
    congr 1
    omega
  · by_cases h2 : v ≤ 2047
    · rw [if_neg (by exact_mod_cast h1), if_pos (by exact_mod_cast h2),
        if_neg h1, if_pos h2]
      have ht : ((v : Int)).toNat = v := Int.toNat_natCast v
      simp only [ht, hshr6, hand]
      rw [l1 (v / 64) (by omega), l2 (v % 64) (by omega)]
    · rw [if_neg (by exact_mod_cast h1), if_neg (by exact_mod_cast h2),
        if_neg h1, if_neg h2]
      have ht : ((v : Int)).toNat = v := Int.toNat_natCast v
      simp only [ht, hshr6, hshr12, hand]
      rw [l3 (v / 4096) (by omega), l2 ((v / 64) % 64) (by omega),
        l2 (v % 64) (by omega)]

/-- Claim C7.  A `\uXXXX` escape with four hexadecimal digits at the
head of the buffer is rewritten to the UTF-8 encoding of the code point
the digits denote - one byte for code points up to 0x7F, two up to
0x7FF, three otherwise - followed by the decoding of the remaining
bytes; the concatenation is the functional image of the in-place left
shift by characters-consumed minus bytes-emitted that the C code
performs.  In particular the escape for 0x41 decodes to the letter A
and the escape for 0xE9 decodes to its two-byte UTF-8 encoding. -/
theorem claim_C7_thm :
    (∀ fuel a b c d rest, isHexDigit a = true → isHexDigit b = true →
      isHexDigit c = true → isHexDigit d = true →
      p_unescape_string (fuel + 1) (92 :: 117 :: a :: b :: c :: d :: rest) =
        utf8SpecBytes (hexVal4 a b c d) ++ p_unescape_string fuel rest) ∧
    p_unescape_string 8 (bs "\\u0041") = bs "A" ∧
    p_unescape_string 8 (bs "\\u00e9") = [195, 169] := by
  refine ⟨?_, by with_unfolding_all rfl, by with_unfolding_all rfl⟩
  intro fuel a b c d rest Ha Hb Hc Hd
  have hva := hexDigitVal_lt16 a Ha
  have hvb := hexDigitVal_lt16 b Hb
  have hvc := hexDigitVal_lt16 c Hc
  have hvd := hexDigitVal_lt16 d Hd
  have hnz : ¬ (a = 0 ∨ b = 0 ∨ c = 0 ∨ d = 0) := by
    have ra := Ha; have rb := Hb; have rc := Hc; have rd := Hd
    simp [isHexDigit] at ra rb rc rd
    omega
  rw [p_unescape_string]
  rw [if_neg hnz]
  rw [strtol16_hex4 a b c d Ha Hb Hc Hd]
  rw [utf8enc_eq (hexVal4 a b c d) (by unfold hexVal4; omega)]

/-- Witness for claim C7 at the concrete digits 0041: the decoded
buffer is the single byte for the letter A followed by the decoded
remainder. -/
theorem claim_C7_witness :
    p_unescape_string (5 + 1) [92, 117, 48, 48, 52, 49] =
      utf8SpecBytes (hexVal4 48 48 52 49) ++ p_unescape_string 5 [] :=
  claim_C7_thm.1 5 48 48 52 49 [] (by decide) (by decide) (by decide) (by decide)

/-- Claim C8.  For a node at a child position reached from its parent by
resolving a path (the parent chain the C code installs in
`p_build_child_json_node`), resolving the path `..` yields the parent
position (first conjunct: the resolver returns `j->parent`, json.c
line 747); resolving `..` from the root, whose parent pointer is NULL,
yields not-found (second conjunct). -/
theorem claim_C8_thm :
    (∀ fuel fuel2 (root : JNode) (loc : List Nat) (i : Nat) (seg : List Nat),
      p_traverse_json fuel2 root (some loc) seg = some (loc ++ [i]) →
      p_traverse_json (fuel + 1) root (some (loc ++ [i])) (bs "..") = some loc) ∧
    (∀ fuel (root : JNode), p_traverse_json (fuel + 1) root (some []) (bs "..") = none) := by
  constructor
  · intro fuel fuel2 root loc i seg hreach
    cases loc with
    | nil => rfl
    | cons x xs =>
      have hdl : ((x :: xs) ++ [i]).dropLast = x :: xs := List.dropLast_concat
      calc p_traverse_json (fuel + 1) root (some ((x :: xs) ++ [i])) (bs "..")
          = some (((x :: xs) ++ [i]).dropLast) := rfl
        _ = some (x :: xs) := by rw [hdl]
  · intro fuel root
    rfl

/-- Witness for claim C8 on the document holding an object with the
single member `a`: the child is reached from the root by the segment
`a`, resolving `..` from it returns the root, and resolving `..` at the
root itself is not-found. -/
theorem claim_C8_witness :
    p_traverse_json 9 docA (some ([] ++ [0])) (bs "..") = some [] ∧
    p_traverse_json 9 docA (some []) (bs "..") = none :=
  ⟨claim_C8_thm.1 8 8 docA [] 0 (bs "a") (by with_unfolding_all rfl),
   claim_C8_thm.2 8 docA⟩

/-- Helper for claim C10: a successful lazy load always leaves the
children count at a value other than the unknown marker -1 - the C code
sets it to 0 on entry (json.c line 439) and only ever increments it. -/
theorem p_lazy_load_count (j j2 : JNode) (h : p_lazy_load j = some j2) :
    j2.children_count ≠ -1 := by
  unfold p_lazy_load at h
  split_ifs at h with hc
  · have hv := Option.some.inj h
    subst hv
    exact hc
  · cases ht : j.node_type <;> simp only [ht] at h
    -- JSON_INVALID
    · have hv := Option.some.inj h
      subst hv
      simp [JNode.children_count]
    -- JSON_OBJECT
    · cases hval : p_is_valid_json (vFuel j.backing_data) j.backing_data 0 JSON_OBJECT with
      | none => simp only [hval] at h; exact Option.noConfusion h
      | some e =>
        simp only [hval] at h
        cases hw : p_eat_whitespace (j.backing_data.length + 2) j.backing_data 1 with
        | none => simp only [hw] at h; exact Option.noConfusion h
        | some st =>
          simp only [hw] at h
          cases hs : objScan (vFuel j.backing_data) j.backing_data st e with
          | none => simp only [hs] at h; exact Option.noConfusion h
          | some cs =>
            simp only [hs] at h
            have hv := Option.some.inj h
            subst hv
            simp [JNode.children_count]
    -- JSON_ARRAY
    · cases hval : p_is_valid_json (vFuel j.backing_data) j.backing_data 0 JSON_ARRAY with
      | none => simp only [hval] at h; exact Option.noConfusion h
      | some e =>
        simp only [hval] at h
        cases hw : p_eat_whitespace (j.backing_data.length + 2) j.backing_data 1 with
        | none => simp only [hw] at h; exact Option.noConfusion h
        | some st =>
          simp only [hw] at h
          cases hs : arrScan (vFuel j.backing_data) j.backing_data st e with
          | none => simp only [hs] at h; exact Option.noConfusion h
          | some cs =>
            simp only [hs] at h
            have hv := Option.some.inj h
            subst hv
            simp [JNode.children_count]
    -- JSON_TRUE
    · have hv := Option.some.inj h
      subst hv
      simp [JNode.children_count]
    -- JSON_FALSE
    · have hv := Option.some.inj h
      subst hv
      simp [JNode.children_count]
    -- JSON_NULL
    · have hv := Option.some.inj h
      subst hv
      simp [JNode.children_count]
    -- JSON_NUMBER
    · cases hn : p_is_valid_number (j.backing_data.length + 2) j.backing_data 0 with
      | none => simp only [hn] at h; exact Option.noConfusion h
      | some e =>
        simp only [hn] at h
        have hv := Option.some.inj h
        subst hv
        simp [JNode.children_count]
    -- JSON_STRING
    · cases hn : p_is_valid_string (j.backing_data.length + 2) j.backing_data 0 with
      | none => simp only [hn] at h; exact Option.noConfusion h
      | some e =>
        simp only [hn] at h
        have hv := Option.some.inj h
        subst hv
        simp [JNode.children_count]

/-- Claim C10.  The children state moves at most once from unknown to
its final value: lazy loading a node whose state is already known
returns it unchanged (first conjunct, json.c line 436), and since every
successful load leaves the state known, calling `json_children_count`
twice yields the same count and the same node state (second conjunct). -/
theorem claim_C10_thm :
    (∀ j : JNode, j.children_count ≠ -1 → p_lazy_load j = some j) ∧
    (∀ (j : JNode) (p : Int × Option JNode),
      json_children_count (some j) = some p → json_children_count p.2 = some p) := by
  constructor
  · intro j hj
    unfold p_lazy_load
    rw [if_pos hj]
  · intro j p h
    simp only [json_children_count] at h
    split_ifs at h with hc
    · cases hll : p_lazy_load j with
      | none => rw [hll] at h; exact Option.noConfusion h
      | some j2 =>
        simp only [hll, Option.map_some'] at h
        have hv := Option.some.inj h
        subst hv
        simp only [json_children_count]
        rw [if_neg (p_lazy_load_count j j2 hll)]
    · have hv := Option.some.inj h
      subst hv
      simp only [json_children_count]
      rw [if_neg hc]

/-- Witness for claim C10 on a concrete already-loaded leaf node: lazy
loading leaves it unchanged, and the children count is stable across a
second call. -/
theorem claim_C10_witness :
    p_lazy_load leafTrue = some leafTrue ∧
    json_children_count ((0, some leafTrue) : Int × Option JNode).2 =
      some ((0, some leafTrue) : Int × Option JNode) :=
  ⟨claim_C10_thm.1 leafTrue (by decide),
   claim_C10_thm.2 leafTrue (0, some leafTrue) rfl⟩

/-- Helper for claim C9: every child produced by the array member scan
of `p_lazy_load` carries no key - the C code passes NULL as the path
name for each of them (json.c lines 672-690). -/
theorem arrScan_keys_none :
    ∀ fuel s i e cs, arrScan fuel s i e = some cs →
      ∀ c ∈ cs, json_get_name (some c) = none := by
  intro fuel
  induction fuel with
  | zero => intro s i e cs h; exact Option.noConfusion h
  | succ fuel ih =>
    intro s i e cs h
    rw [arrScan] at h
    split_ifs at h
    all_goals try
      (have hv := Option.some.inj h
       subst hv
       intro c hc
       exact absurd hc (List.not_mem_nil c))
    cases hew : p_eat_whitespace (s.length + 2) s i with
    | none => simp only [hew] at h; exact Option.noConfusion h
    | some v =>
      simp only [hew] at h
      rcases hcl : classifyValue s v with ⟨ct, vEnd⟩
      simp only [hcl] at h
      cases vEnd with
      | none => exact Option.noConfusion h
      | some ve =>
        cases hew2 : p_eat_whitespace (s.length + 2) s ve with
        | none => simp only [hew2] at h; exact Option.noConfusion h
        | some w =>
          simp only [hew2] at h
          split_ifs at h with h93 h44
          · rw [Option.map_eq_some'] at h
            obtain ⟨cs0, hcs0, hcons⟩ := h
            subst hcons
            intro c hc
            rcases List.mem_cons.mp hc with rfl | hc2
            · rfl
            · exact ih s (w + 1) e cs0 hcs0 c hc2
          · cases hew3 : p_eat_whitespace (s.length + 2) s (w + 1) with
            | none => simp only [hew3] at h; exact Option.noConfusion h
            | some n =>
              simp only [hew3] at h
              by_cases hn93 : getc s n = 93
              · rw [if_pos hn93] at h
                exact Option.noConfusion h
              · rw [if_neg hn93] at h
                rw [Option.map_eq_some'] at h
                obtain ⟨cs0, hcs0, hcons⟩ := h
                subst hcons
                intro c hc
                rcases List.mem_cons.mp hc with rfl | hc2
                · rfl
                · exact ih s n e cs0 hcs0 c hc2
          · rw [Option.map_eq_some'] at h
            obtain ⟨cs0, hcs0, hcons⟩ := h
            subst hcons
            intro c hc
            rcases List.mem_cons.mp hc with rfl | hc2
            · rfl
            · exact ih s w e cs0 hcs0 c hc2

/-- Helper for claim C9: every child produced by the object member scan
of `p_lazy_load` carries a key - the C code copies the bytes of the
quoted member name, decodes them and stores the result as the path name
(json.c lines 532-539). -/
theorem objScan_keys_defined :
    ∀ fuel s i e cs, objScan fuel s i e = some cs →
      ∀ c ∈ cs, (json_get_name (some c)).isSome = true := by
  intro fuel
  induction fuel with
  | zero => intro s i e cs h; exact Option.noConfusion h
  | succ fuel ih =>
    intro s i e cs h
    rw [objScan] at h
    split_ifs at h
    all_goals try
      (have hv := Option.some.inj h
       subst hv
       intro c hc
       exact absurd hc (List.not_mem_nil c))
    cases hst : p_is_valid_string (s.length + 2) s i with
    | none => simp only [hst] at h; exact Option.noConfusion h
    | some k =>
      simp only [hst] at h
      by_cases h58 : getc s k ≠ 58
      · rw [if_pos h58] at h
        exact Option.noConfusion h
      · rw [if_neg h58] at h
        cases hew : p_eat_whitespace (s.length + 2) s (k + 1) with
        | none => simp only [hew] at h; exact Option.noConfusion h
        | some v =>
          simp only [hew] at h
          rcases hcl : classifyValue s v with ⟨ct, vEnd⟩
          simp only [hcl] at h
          cases vEnd with
          | none => exact Option.noConfusion h
          | some ve =>
            cases hew2 : p_eat_whitespace (s.length + 2) s ve with
            | none => simp only [hew2] at h; exact Option.noConfusion h
            | some w =>
              simp only [hew2] at h
              split_ifs at h with h125 h44
              · rw [Option.map_eq_some'] at h
                obtain ⟨cs0, hcs0, hcons⟩ := h
                subst hcons
                intro c hc
                rcases List.mem_cons.mp hc with rfl | hc2
                · rfl
                · exact ih s (w + 1) e cs0 hcs0 c hc2
              · cases hew3 : p_eat_whitespace (s.length + 2) s (w + 1) with
                | none => simp only [hew3] at h; exact Option.noConfusion h
                | some n =>
                  simp only [hew3] at h
                  by_cases hn125 : getc s n = 125
                  · rw [if_pos hn125] at h
                    exact Option.noConfusion h
                  · rw [if_neg hn125] at h
                    rw [Option.map_eq_some'] at h
                    obtain ⟨cs0, hcs0, hcons⟩ := h
                    subst hcons
                    intro c hc
                    rcases List.mem_cons.mp hc with rfl | hc2
                    · rfl
                    · exact ih s n e cs0 hcs0 c hc2
              · rw [Option.map_eq_some'] at h
                obtain ⟨cs0, hcs0, hcons⟩ := h
                subst hcons
                intro c hc
                rcases List.mem_cons.mp hc with rfl | hc2
                · rfl
                · exact ih s w e cs0 hcs0 c hc2

/-- Claim C9.  The key accessor returns no name for the root node -
`p_build_root_json_node` stores NULL (json.c line 391) - and no name
for the children built by the array scan, while every child built by
the object scan carries a key, namely the decoded member name; on the
concrete document whose single member key contains the escape for 0x41
followed by the letter b, the stored key is the decoded string Ab.  The
C code returns the NULL pointer, modelled as `none`, as the empty name
for the root and for array elements. -/
theorem claim_C9_thm :
    (∀ (data : List Nat) (t : json_node_type_t),
      json_get_name (some (p_build_root_json_node data t)) = none) ∧
    (∀ fuel s i e cs, arrScan fuel s i e = some cs →
      ∀ c ∈ cs, json_get_name (some c) = none) ∧
    (∀ fuel s i e cs, objScan fuel s i e = some cs →
      ∀ c ∈ cs, (json_get_name (some c)).isSome = true) ∧
    ((json_parse (bs "\x7b\"\\u0041b\":1 \x7d")).bind
      (fun r => (p_lazy_load r).map
        (fun j => j.children.map (fun c => json_get_name (some c)))) =
      some [some (bs "Ab")]) :=
  ⟨fun _ _ => rfl, arrScan_keys_none, objScan_keys_defined, by with_unfolding_all rfl⟩

/-- Witness for claim C9 at a concrete array document: the single child
the array scan produces for the one-element array has no name. -/
theorem claim_C9_witness :
    ∀ c ∈ [p_build_child_json_node (bs "1 ]") none JSON_NUMBER],
      json_get_name (some c) = none :=
  claim_C9_thm.2.1 (vFuel (bs "[1 ]")) (bs "[1 ]") 1 4
    [p_build_child_json_node (bs "1 ]") none JSON_NUMBER] (by with_unfolding_all rfl)
